import Mathlib

/-!
Verification development for the websocket-app repository: a shallow
embedding of its frame codec (`src/frame.rs`), JSON snapshot differ
(`src/utils.rs`) and broker event handling (`src/broker.rs`), together
with proofs and refutations of the specification's claims.
-/

set_option maxRecDepth 8192

namespace WsApp

/-- JSON values, modelling `serde_json::Value`.  Numbers are modelled as
integers (the repository only ever produces strings, objects and the
values embedded below; floats are not needed by any claim).  Objects are
association lists; `serde_json`'s default `Map` is a `BTreeMap`, so the
canonical representation keeps keys strictly sorted (see `canon2`). -/
inductive Json where
  | null : Json
  | bool (b : Bool) : Json
  | num (n : Int) : Json
  | str (s : String) : Json
  | arr (elems : List Json) : Json
  | obj (entries : List (String × Json)) : Json

namespace Json

mutual

def decEq : (a b : Json) → Decidable (a = b)
  | .null, .null => isTrue rfl
  | .bool a, .bool b =>
    if h : a = b then isTrue (h ▸ rfl) else isFalse fun hh => h (Json.bool.inj hh)
  | .num a, .num b =>
    if h : a = b then isTrue (h ▸ rfl) else isFalse fun hh => h (Json.num.inj hh)
  | .str a, .str b =>
    if h : a = b then isTrue (h ▸ rfl) else isFalse fun hh => h (Json.str.inj hh)
  | .arr a, .arr b =>
    match decEqList a b with
    | isTrue h => isTrue (h ▸ rfl)
    | isFalse h => isFalse fun hh => h (Json.arr.inj hh)
  | .obj a, .obj b =>
    match decEqKVs a b with
    | isTrue h => isTrue (h ▸ rfl)
    | isFalse h => isFalse fun hh => h (Json.obj.inj hh)
  | .null, .bool _ | .null, .num _ | .null, .str _ | .null, .arr _ | .null, .obj _
  | .bool _, .null | .bool _, .num _ | .bool _, .str _ | .bool _, .arr _ | .bool _, .obj _
  | .num _, .null | .num _, .bool _ | .num _, .str _ | .num _, .arr _ | .num _, .obj _
  | .str _, .null | .str _, .bool _ | .str _, .num _ | .str _, .arr _ | .str _, .obj _
  | .arr _, .null | .arr _, .bool _ | .arr _, .num _ | .arr _, .str _ | .arr _, .obj _
  | .obj _, .null | .obj _, .bool _ | .obj _, .num _ | .obj _, .str _ | .obj _, .arr _ =>
    isFalse (by intro h; exact Json.noConfusion h)

def decEqList : (a b : List Json) → Decidable (a = b)
  | [], [] => isTrue rfl
  | [], _ :: _ => isFalse (by intro h; exact List.noConfusion h)
  | _ :: _, [] => isFalse (by intro h; exact List.noConfusion h)
  | x :: xs, y :: ys =>
    match decEq x y with
    | isFalse h => isFalse fun hh => h (List.cons.inj hh).1
    | isTrue h1 =>
      match decEqList xs ys with
      | isTrue h2 => isTrue (h1 ▸ h2 ▸ rfl)
      | isFalse h => isFalse fun hh => h (List.cons.inj hh).2

def decEqKVs : (a b : List (String × Json)) → Decidable (a = b)
  | [], [] => isTrue rfl
  | [], _ :: _ => isFalse (by intro h; exact List.noConfusion h)
  | _ :: _, [] => isFalse (by intro h; exact List.noConfusion h)
  | (k, v) :: xs, (k', v') :: ys =>
    if hk : k = k' then
      match decEq v v' with
      | isFalse h => isFalse fun hh => h (congrArg Prod.snd (List.cons.inj hh).1)
      | isTrue hv =>
        match decEqKVs xs ys with
        | isTrue h2 => isTrue (hk ▸ hv ▸ h2 ▸ rfl)
        | isFalse h => isFalse fun hh => h (List.cons.inj hh).2
    else isFalse fun hh => hk (congrArg Prod.fst (List.cons.inj hh).1)

end

instance : DecidableEq Json := decEq

/-- `Value::as_object` viewed as a pure partial function: the entry list
when the value is an object, `none` otherwise. -/
def asObject : Json → Option (List (String × Json))
  | .obj entries => some entries
  | _ => none

/-- Whether the value is a JSON object (`Value::is_object`). -/
def isObject (v : Json) : Bool := v.asObject.isSome

end Json

/-! ### Association-list operations mirroring `serde_json::Map` (`BTreeMap`) -/

/-- Lexicographic comparison of character lists by code point, the order a
Rust `BTreeMap<String, _>` keeps its keys in (UTF-8 byte order coincides
with code-point order). -/
def charListLt : List Char → List Char → Bool
  | _, [] => false
  | [], _ :: _ => true
  | a :: as, b :: bs =>
    if a.toNat < b.toNat then true
    else if a.toNat = b.toNat then charListLt as bs
    else false

/-- Strict string order used for the `BTreeMap` key invariant. -/
def strLt (a b : String) : Bool := charListLt a.data b.data

theorem charListLt_irrefl (l : List Char) : charListLt l l = false := by
  induction l with
  | nil => rfl
  | cons a as ih => simp [charListLt, ih]

theorem strLt_irrefl (a : String) : strLt a a = false := charListLt_irrefl a.data

theorem charListLt_trans {l1 l2 l3 : List Char} (h12 : charListLt l1 l2 = true)
    (h23 : charListLt l2 l3 = true) : charListLt l1 l3 = true := by
  induction l1 generalizing l2 l3 with
  | nil =>
    cases l3 with
    | nil =>
      cases l2 with
      | nil => exact absurd h12 (by simp [charListLt])
      | cons b bs => exact absurd h23 (by simp [charListLt])
    | cons c cs => simp [charListLt]
  | cons a as ih =>
    cases l2 with
    | nil => exact absurd h12 (by simp [charListLt])
    | cons b bs =>
      cases l3 with
      | nil => exact absurd h23 (by simp [charListLt])
      | cons c cs =>
        simp only [charListLt] at h12 h23 ⊢
        by_cases hab : a.toNat < b.toNat
        · by_cases hbc : b.toNat < c.toNat
          · simp [Nat.lt_trans hab hbc]
          · rw [if_neg hbc] at h23
            by_cases hbc2 : b.toNat = c.toNat
            · simp [hbc2 ▸ hab]
            · rw [if_neg hbc2] at h23
              exact absurd h23 (by simp)
        · rw [if_neg hab] at h12
          by_cases hab2 : a.toNat = b.toNat
          · rw [if_pos hab2] at h12
            by_cases hbc : b.toNat < c.toNat
            · simp [hab2 ▸ hbc]
            · rw [if_neg hbc] at h23
              by_cases hbc2 : b.toNat = c.toNat
              · rw [if_pos hbc2] at h23
                have hac : a.toNat = c.toNat := hab2.trans hbc2
                have : ¬ a.toNat < c.toNat := by omega
                simp [this, hac, ih h12 h23]
              · rw [if_neg hbc2] at h23
                exact absurd h23 (by simp)
          · rw [if_neg hab2] at h12
            exact absurd h12 (by simp)

theorem strLt_trans {a b c : String} (hab : strLt a b = true) (hbc : strLt b c = true) :
    strLt a c = true := charListLt_trans hab hbc

theorem charListLt_of_not_of_ne {l1 l2 : List Char} (h : ¬ charListLt l1 l2 = true)
    (hne : l1 ≠ l2) : charListLt l2 l1 = true := by
  induction l1 generalizing l2 with
  | nil =>
    cases l2 with
    | nil => exact absurd rfl hne
    | cons b bs => exact absurd (by simp [charListLt]) h
  | cons a as ih =>
    cases l2 with
    | nil => simp [charListLt]
    | cons b bs =>
      simp only [charListLt] at h ⊢
      by_cases hab : a.toNat < b.toNat
      · exact absurd (by simp [hab]) h
      · rw [if_neg hab] at h
        by_cases hab2 : a.toNat = b.toNat
        · rw [if_pos hab2] at h
          have hchar : a = b := Char.eq_of_val_eq (UInt32.ext hab2)
          have hne' : as ≠ bs := by
            intro hh
            exact hne (hchar ▸ hh ▸ rfl)
          have hba : ¬ b.toNat < a.toNat := by omega
          simp [hba, hab2.symm, ih h hne']
        · have : b.toNat < a.toNat := by omega
          simp [this]

theorem strLt_of_not_of_ne {a b : String} (h : ¬ strLt a b = true) (hne : a ≠ b) :
    strLt b a = true := by
  refine charListLt_of_not_of_ne h ?_
  intro hd
  apply hne
  cases a; cases b
  exact congrArg String.mk hd

theorem ne_of_strLt {a b : String} (h : strLt a b = true) : a ≠ b := by
  intro heq
  rw [heq, strLt_irrefl] at h
  exact Bool.noConfusion h

/-- `BTreeMap::get` on a key-sorted association list: first entry with the
given key. -/
def lookupKV (k : String) : List (String × Json) → Option Json
  | [] => none
  | (k', v) :: rest => if k = k' then some v else lookupKV k rest

/-- `BTreeMap::contains_key`. -/
def containsKV (k : String) (l : List (String × Json)) : Bool :=
  (lookupKV k l).isSome

/-- `BTreeMap::insert`: insert at the sorted position, replacing an existing
entry with the same key. -/
def insertKV (k : String) (v : Json) : List (String × Json) → List (String × Json)
  | [] => [(k, v)]
  | (k', v') :: rest =>
    if strLt k k' then (k, v) :: (k', v') :: rest
    else if k = k' then (k, v) :: rest
    else (k', v') :: insertKV k v rest

/-- `BTreeMap::remove` (key only): drop the entry with the given key. -/
def removeKV (k : String) : List (String × Json) → List (String × Json)
  | [] => []
  | (k', v') :: rest => if k = k' then rest else (k', v') :: removeKV k rest

/-- Keys strictly increasing — the invariant of `BTreeMap` iteration order. -/
def keysSorted (l : List (String × Json)) : Prop :=
  l.Pairwise (fun a b => strLt a.1 b.1 = true)

instance (l : List (String × Json)) : Decidable (keysSorted l) :=
  inferInstanceAs (Decidable (List.Pairwise _ l))

/-- Two-level canonicity: the top-level entry list is key-sorted and every
immediate object value is key-sorted as well.  This is the shape
`serde_json` `BTreeMap`-backed objects take at the two levels the diff
algorithm traverses. -/
def canon2 (l : List (String × Json)) : Prop :=
  keysSorted l ∧ ∀ p ∈ l, ∀ inner, p.2 = Json.obj inner → keysSorted inner

instance (l : List (String × Json)) : Decidable (canon2 l) := by
  haveI : DecidablePred fun p : String × Json =>
      ∀ inner, p.2 = Json.obj inner → keysSorted inner := by
    intro p
    obtain ⟨k, v⟩ := p
    cases v with
    | obj inner =>
      refine decidable_of_iff (keysSorted inner) ⟨fun hs i hi => ?_, fun hall => hall inner rfl⟩
      cases Json.obj.inj hi
      exact hs
    | null => exact isTrue fun i hi => Json.noConfusion hi
    | bool b => exact isTrue fun i hi => Json.noConfusion hi
    | num n => exact isTrue fun i hi => Json.noConfusion hi
    | str s => exact isTrue fun i hi => Json.noConfusion hi
    | arr es => exact isTrue fun i hi => Json.noConfusion hi
  unfold canon2
  infer_instance

/-! ### Basic lemmas about the association-list operations -/

theorem lookupKV_insertKV (k j : String) (v : Json) (l : List (String × Json)) :
    lookupKV j (insertKV k v l) = if j = k then some v else lookupKV j l := by
  induction l with
  | nil => simp [insertKV, lookupKV]
  | cons hd tl ih =>
    obtain ⟨k', v'⟩ := hd
    simp only [insertKV]
    by_cases hlt : strLt k k' = true
    · rw [if_pos hlt]
      simp [lookupKV]
    · rw [if_neg hlt]
      by_cases heq : k = k'
      · subst heq
        rw [if_pos rfl]
        by_cases hjk : j = k <;> simp [lookupKV, hjk]
      · rw [if_neg heq]
        by_cases hjk' : j = k'
        · subst hjk'
          have hjk : ¬ j = k := fun h => heq (h ▸ rfl)
          simp [lookupKV, hjk]
        · simp [lookupKV, hjk', ih]

theorem lookupKV_eq_none_of_not_mem (j : String) (l : List (String × Json))
    (h : j ∉ l.map Prod.fst) : lookupKV j l = none := by
  induction l with
  | nil => rfl
  | cons hd tl ih =>
    obtain ⟨k', v'⟩ := hd
    simp only [List.map_cons, List.mem_cons, not_or] at h
    simp [lookupKV, h.1, ih h.2]

/-- With unique keys, removing key `k` makes `k` unfindable and leaves every
other key's binding intact. -/
theorem lookupKV_removeKV (k j : String) (l : List (String × Json))
    (hnd : (l.map Prod.fst).Nodup) :
    lookupKV j (removeKV k l) = if j = k then none else lookupKV j l := by
  induction l with
  | nil => simp [removeKV, lookupKV]
  | cons hd tl ih =>
    obtain ⟨k', v'⟩ := hd
    simp only [List.map_cons, List.nodup_cons] at hnd
    obtain ⟨hk', hnd'⟩ := hnd
    simp only [removeKV]
    by_cases hkk' : k = k'
    · subst hkk'
      rw [if_pos rfl]
      by_cases hjk : j = k
      · subst hjk
        simp [lookupKV_eq_none_of_not_mem j tl hk']
      · simp [lookupKV, hjk]
    · rw [if_neg hkk']
      by_cases hjk' : j = k'
      · subst hjk'
        have hjk : ¬ j = k := fun h => hkk' (h ▸ rfl)
        simp [lookupKV, hjk]
      · simp [lookupKV, hjk', ih hnd']

theorem mem_insertKV {p : String × Json} {k : String} {v : Json}
    {l : List (String × Json)} (h : p ∈ insertKV k v l) : p = (k, v) ∨ p ∈ l := by
  induction l with
  | nil => simpa [insertKV] using h
  | cons hd tl ih =>
    obtain ⟨k', v'⟩ := hd
    simp only [insertKV] at h
    by_cases hlt : strLt k k' = true
    · rw [if_pos hlt] at h
      rcases List.mem_cons.mp h with rfl | hmem
      · exact Or.inl rfl
      · exact Or.inr hmem
    · rw [if_neg hlt] at h
      by_cases heq : k = k'
      · rw [if_pos heq] at h
        rcases List.mem_cons.mp h with rfl | hmem
        · exact Or.inl rfl
        · exact Or.inr (List.mem_cons_of_mem _ hmem)
      · rw [if_neg heq] at h
        rcases List.mem_cons.mp h with rfl | hmem
        · exact Or.inr (List.mem_cons_self _ _)
        · rcases ih hmem with h1 | h1
          · exact Or.inl h1
          · exact Or.inr (List.mem_cons_of_mem _ h1)

theorem mem_removeKV {p : String × Json} {k : String}
    {l : List (String × Json)} (h : p ∈ removeKV k l) : p ∈ l := by
  induction l with
  | nil => simp [removeKV] at h
  | cons hd tl ih =>
    obtain ⟨k', v'⟩ := hd
    simp only [removeKV] at h
    by_cases hkk' : k = k'
    · rw [if_pos hkk'] at h
      exact List.mem_cons_of_mem _ h
    · rw [if_neg hkk'] at h
      rcases List.mem_cons.mp h with rfl | hmem
      · exact List.mem_cons_self _ _
      · exact List.mem_cons_of_mem _ (ih hmem)

theorem keysSorted_nodup {l : List (String × Json)} (h : keysSorted l) :
    (l.map Prod.fst).Nodup := by
  induction l with
  | nil => simp
  | cons hd tl ih =>
    rw [keysSorted, List.pairwise_cons] at h
    simp only [List.map_cons, List.nodup_cons]
    refine ⟨?_, ih h.2⟩
    intro hmem
    obtain ⟨p, hp, hfst⟩ := List.mem_map.mp hmem
    exact ne_of_strLt (h.1 p hp) hfst.symm

theorem keysSorted_insertKV (k : String) (v : Json) {l : List (String × Json)}
    (h : keysSorted l) : keysSorted (insertKV k v l) := by
  induction l with
  | nil => simp [insertKV, keysSorted]
  | cons hd tl ih =>
    obtain ⟨k', v'⟩ := hd
    rw [keysSorted, List.pairwise_cons] at h
    obtain ⟨hhd, htl⟩ := h
    simp only [insertKV]
    by_cases hlt : strLt k k' = true
    · rw [if_pos hlt, keysSorted, List.pairwise_cons]
      refine ⟨?_, List.pairwise_cons.mpr ⟨hhd, htl⟩⟩
      intro p hp
      rcases List.mem_cons.mp hp with rfl | hmem
      · exact hlt
      · exact strLt_trans hlt (hhd p hmem)
    · rw [if_neg hlt]
      by_cases heq : k = k'
      · subst heq
        rw [if_pos rfl, keysSorted, List.pairwise_cons]
        exact ⟨hhd, htl⟩
      · rw [if_neg heq, keysSorted, List.pairwise_cons]
        have hgt : strLt k' k = true := strLt_of_not_of_ne hlt heq
        refine ⟨?_, ih htl⟩
        intro p hp
        rcases mem_insertKV hp with rfl | hmem
        · exact hgt
        · exact hhd p hmem

theorem keysSorted_removeKV (k : String) {l : List (String × Json)}
    (h : keysSorted l) : keysSorted (removeKV k l) := by
  induction l with
  | nil => simp [removeKV, keysSorted]
  | cons hd tl ih =>
    obtain ⟨k', v'⟩ := hd
    rw [keysSorted, List.pairwise_cons] at h
    obtain ⟨hhd, htl⟩ := h
    simp only [removeKV]
    by_cases hkk' : k = k'
    · rw [if_pos hkk']; exact htl
    · rw [if_neg hkk', keysSorted, List.pairwise_cons]
      exact ⟨fun p hp => hhd p (mem_removeKV hp), ih htl⟩

theorem keysSorted_filter (p : String × Json → Bool) {l : List (String × Json)}
    (h : keysSorted l) : keysSorted (l.filter p) := by
  rw [keysSorted] at h ⊢
  exact List.Pairwise.filter p h

/-! ### The snapshot differ (`create_json_snapshot`, `src/utils.rs`) -/

/-- One iteration of the inner `for (key, new_val) in new_dict` loop of
`create_json_snapshot`: an equal binding is removed (suppressed), a changed
or new binding is inserted. -/
def mergeStep (acc : List (String × Json)) (kv : String × Json) : List (String × Json) :=
  match lookupKV kv.1 acc with
  | some old_v => if old_v = kv.2 then removeKV kv.1 acc else insertKV kv.1 kv.2 acc
  | none => insertKV kv.1 kv.2 acc

/-- The inner per-channel loop of `create_json_snapshot`: iterate over
`new_dict`, removing from `old_dict` every key bound to an equal value and
inserting every changed or new binding.  Keys present only in `old_dict`
are left untouched. -/
def mergeInner (old_dict new_dict : List (String × Json)) : List (String × Json) :=
  new_dict.foldl mergeStep old_dict

/-- One iteration of the top-level `for (channel, value) in new_state` loop of
`create_json_snapshot`. -/
def diffStep (acc : List (String × Json)) (kv : String × Json) : List (String × Json) :=
  match lookupKV kv.1 acc with
  | none => insertKV kv.1 kv.2 acc
  | some old_value =>
    match kv.2.asObject with
    | none => insertKV kv.1 kv.2 acc
    | some new_dict =>
      match old_value.asObject with
      | none => insertKV kv.1 (Json.obj new_dict) acc
      | some old_dict => insertKV kv.1 (Json.obj (mergeInner old_dict new_dict)) acc

/-- The object-level body of `create_json_snapshot`: first drop the keys of
`old_state` absent from `new_state`, then run the per-channel loop over
`new_state`. -/
def diffObj (old_state new_state : List (String × Json)) : List (String × Json) :=
  new_state.foldl diffStep (old_state.filter fun p => containsKV p.1 new_state)

/-- `create_json_snapshot` from `src/utils.rs`, as a function from the two
documents to the mutated `old_state`.  Returns `none` exactly where the Rust
function panics: on the `as_object_mut().unwrap()` / `as_object().unwrap()`
calls, reached whenever the documents differ and either is not an object. -/
def create_json_snapshot (old_state new_state : Json) : Option Json :=
  if old_state = new_state then some (Json.obj [])
  else
    match old_state.asObject, new_state.asObject with
    | some oldO, some newO => some (Json.obj (diffObj oldO newO))
    | _, _ => none

/-- Key-by-key merge of `overlay` into `base`: the binding from `overlay`
wins, bindings only in `base` survive. -/
def unionKV (base overlay : List (String × Json)) : List (String × Json) :=
  overlay.foldl (fun acc ikv => insertKV ikv.1 ikv.2 acc) base

/-- Modelled from the spec: one top-level key of the client merge rule.  A
non-object diff value replaces the client's value wholesale; an object diff
value is merged into the client's object key by key (when the client's value
is absent or not an object, the diff object lands wholesale). -/
def applyStep (acc : List (String × Json)) (kv : String × Json) : List (String × Json) :=
  match kv.2.asObject with
  | none => insertKV kv.1 kv.2 acc
  | some dObj =>
    match lookupKV kv.1 acc with
    | some cv =>
      match cv.asObject with
      | some cObj => insertKV kv.1 (Json.obj (unionKV cObj dObj)) acc
      | none => insertKV kv.1 kv.2 acc
    | none => insertKV kv.1 kv.2 acc

/-- Modelled from the spec: the client-side one-level merge rule that applies a
delivered diff to the state the client holds.  The repository contains no
client implementation; the rule is taken verbatim from the specification's
diff-correctness law — "top-level keys absent in diff means unchanged; a
non-object value in the diff replaces the client's value wholesale; an object
value in the diff is merged into the client's object key by key". -/
def applyDiff (client d : List (String × Json)) : List (String × Json) :=
  d.foldl applyStep client

/-! Sanity checks: the six cases of the repository's `test_patch` unit test. -/

example :
    create_json_snapshot (.obj [("a", .str "xyz")]) (.obj [("a", .str "xyz")]) =
      some (.obj []) := by rfl

example :
    create_json_snapshot (.obj [("channel", .obj [("a", .str "xyz")])])
      (.obj [("channel", .obj [("a", .str "abc")])]) =
      some (.obj [("channel", .obj [("a", .str "abc")])]) := by rfl

example :
    create_json_snapshot
      (.obj [("channel", .obj [("a", .str "xyz"), ("b", .str "notchangedwillberemoved")])])
      (.obj [("channel", .obj [("a", .str "abc"), ("b", .str "notchangedwillberemoved")])]) =
      some (.obj [("channel", .obj [("a", .str "abc")])]) := by rfl

example :
    create_json_snapshot (.obj [("channel", .str "usedtobeastring")])
      (.obj [("channel", .obj [("a", .str "abc"), ("b", .str "nowiamadict")])]) =
      some (.obj [("channel", .obj [("a", .str "abc"), ("b", .str "nowiamadict")])]) := by rfl

example :
    create_json_snapshot (.obj [("channel", .obj [("a", .str "iusedtobeadict")])])
      (.obj [("channel", .str "nowiamastring")]) =
      some (.obj [("channel", .str "nowiamastring")]) := by rfl

example :
    create_json_snapshot (.obj [("channel_a", .obj [("a", .str "xyz")])])
      (.obj [("channel_b", .obj [("a", .str "xyz")])]) =
      some (.obj [("channel_b", .obj [("a", .str "xyz")])]) := by rfl

/-! ### Pointwise characterization of the differ -/

theorem lookupKV_filterKeys (q : String → Bool) (k : String) (l : List (String × Json)) :
    lookupKV k (l.filter fun p => q p.1) = if q k then lookupKV k l else none := by
  induction l with
  | nil => simp [lookupKV]
  | cons hd tl ih =>
    obtain ⟨k', v'⟩ := hd
    by_cases hq : q k'
    · rw [List.filter_cons_of_pos (by simpa using hq)]
      by_cases hjk : k = k'
      · subst hjk
        simp [lookupKV, hq]
      · simp [lookupKV, hjk, ih]
    · rw [List.filter_cons_of_neg (by simpa using hq)]
      by_cases hjk : k = k'
      · subst hjk
        simp [lookupKV, hq, ih, lookupKV_eq_none_of_not_mem]
      · simp [lookupKV, hjk, ih]

theorem keysSorted_mergeStep (kv : String × Json) {acc : List (String × Json)}
    (h : keysSorted acc) : keysSorted (mergeStep acc kv) := by
  unfold mergeStep
  cases lookupKV kv.1 acc with
  | none => exact keysSorted_insertKV _ _ h
  | some old_v =>
    dsimp only
    by_cases he : old_v = kv.2
    · rw [if_pos he]
      exact keysSorted_removeKV _ h
    · rw [if_neg he]
      exact keysSorted_insertKV _ _ h

theorem lookupKV_mergeStep_ne (kv : String × Json) (j : String)
    {acc : List (String × Json)} (hacc : keysSorted acc) (hne : j ≠ kv.1) :
    lookupKV j (mergeStep acc kv) = lookupKV j acc := by
  unfold mergeStep
  cases lookupKV kv.1 acc with
  | none => simp [lookupKV_insertKV, hne]
  | some old_v =>
    dsimp only
    by_cases he : old_v = kv.2
    · rw [if_pos he, lookupKV_removeKV _ _ _ (keysSorted_nodup hacc), if_neg hne]
    · rw [if_neg he, lookupKV_insertKV, if_neg hne]

theorem lookupKV_mergeStep_self (k : String) (v : Json) {acc : List (String × Json)}
    (hacc : keysSorted acc) :
    lookupKV k (mergeStep acc (k, v)) =
      match lookupKV k acc with
      | some ov => if ov = v then none else some v
      | none => some v := by
  unfold mergeStep
  cases hl : lookupKV k acc with
  | none => simp [lookupKV_insertKV]
  | some old_v =>
    dsimp only
    by_cases he : old_v = v
    · rw [if_pos he, lookupKV_removeKV _ _ _ (keysSorted_nodup hacc), if_pos rfl, if_pos he]
    · rw [if_neg he, lookupKV_insertKV, if_pos rfl, if_neg he]

theorem keysSorted_mergeInner {od : List (String × Json)} (nd : List (String × Json))
    (h : keysSorted od) : keysSorted (mergeInner od nd) := by
  induction nd generalizing od with
  | nil => exact h
  | cons kv rest ih =>
    rw [mergeInner, List.foldl_cons]
    exact ih (keysSorted_mergeStep kv h)

theorem lookupKV_mergeInner (od nd : List (String × Json)) (ik : String)
    (hod : keysSorted od) (hnd : (nd.map Prod.fst).Nodup) :
    lookupKV ik (mergeInner od nd) =
      match lookupKV ik nd with
      | none => lookupKV ik od
      | some nv =>
        match lookupKV ik od with
        | some ov => if ov = nv then none else some nv
        | none => some nv := by
  induction nd generalizing od with
  | nil => simp [mergeInner, lookupKV]
  | cons kv rest ih =>
    obtain ⟨k0, v0⟩ := kv
    simp only [List.map_cons, List.nodup_cons] at hnd
    obtain ⟨hk0, hnd'⟩ := hnd
    rw [mergeInner, List.foldl_cons]
    have hmerge : List.foldl mergeStep (mergeStep od (k0, v0)) rest =
        mergeInner (mergeStep od (k0, v0)) rest := rfl
    rw [hmerge, ih (mergeStep od (k0, v0)) (keysSorted_mergeStep _ hod) hnd']
    by_cases hik : ik = k0
    · subst hik
      have hrest : lookupKV ik rest = none :=
        lookupKV_eq_none_of_not_mem ik rest hk0
      rw [hrest]
      simp only [lookupKV, if_pos rfl]
      exact lookupKV_mergeStep_self ik v0 hod
    · have hstep : lookupKV ik (mergeStep od (k0, v0)) = lookupKV ik od :=
        lookupKV_mergeStep_ne (k0, v0) ik hod hik
      simp only [lookupKV, if_neg hik, hstep]

theorem keysSorted_diffStep (kv : String × Json) {acc : List (String × Json)}
    (hacc : keysSorted acc) : keysSorted (diffStep acc kv) := by
  unfold diffStep
  cases lookupKV kv.1 acc with
  | none => exact keysSorted_insertKV _ _ hacc
  | some old_value =>
    dsimp only
    cases kv.2.asObject with
    | none => exact keysSorted_insertKV _ _ hacc
    | some new_dict =>
      dsimp only
      cases old_value.asObject with
      | none => exact keysSorted_insertKV _ _ hacc
      | some old_dict => exact keysSorted_insertKV _ _ hacc

theorem lookupKV_diffStep_ne (kv : String × Json) (j : String)
    (acc : List (String × Json)) (hne : j ≠ kv.1) :
    lookupKV j (diffStep acc kv) = lookupKV j acc := by
  unfold diffStep
  cases lookupKV kv.1 acc with
  | none => rw [lookupKV_insertKV, if_neg hne]
  | some old_value =>
    dsimp only
    cases kv.2.asObject with
    | none => rw [lookupKV_insertKV, if_neg hne]
    | some new_dict =>
      dsimp only
      cases old_value.asObject with
      | none => rw [lookupKV_insertKV, if_neg hne]
      | some old_dict => rw [lookupKV_insertKV, if_neg hne]

theorem lookupKV_diffStep_self (k : String) (v : Json) (acc : List (String × Json)) :
    lookupKV k (diffStep acc (k, v)) =
      match lookupKV k acc with
      | none => some v
      | some av =>
        match v.asObject with
        | none => some v
        | some nd =>
          match av.asObject with
          | none => some (Json.obj nd)
          | some od => some (Json.obj (mergeInner od nd)) := by
  unfold diffStep
  cases lookupKV k acc with
  | none => rw [lookupKV_insertKV, if_pos rfl]
  | some av =>
    dsimp only
    cases v.asObject with
    | none => rw [lookupKV_insertKV, if_pos rfl]
    | some nd =>
      dsimp only
      cases av.asObject with
      | none => rw [lookupKV_insertKV, if_pos rfl]
      | some od => rw [lookupKV_insertKV, if_pos rfl]

theorem lookupKV_foldl_diffStep (rest : List (String × Json))
    (acc : List (String × Json)) (k : String)
    (hnd : (rest.map Prod.fst).Nodup) :
    lookupKV k (rest.foldl diffStep acc) =
      match lookupKV k rest with
      | none => lookupKV k acc
      | some bv =>
        match lookupKV k acc with
        | none => some bv
        | some av =>
          match bv.asObject with
          | none => some bv
          | some nd =>
            match av.asObject with
            | none => some (Json.obj nd)
            | some od => some (Json.obj (mergeInner od nd)) := by
  induction rest generalizing acc with
  | nil => simp [lookupKV]
  | cons kv rest ih =>
    obtain ⟨k0, v0⟩ := kv
    simp only [List.map_cons, List.nodup_cons] at hnd
    obtain ⟨hk0, hnd'⟩ := hnd
    rw [List.foldl_cons, ih (diffStep acc (k0, v0)) hnd']
    by_cases hik : k = k0
    · subst hik
      have hrest : lookupKV k rest = none :=
        lookupKV_eq_none_of_not_mem k rest hk0
      rw [hrest]
      simp only [lookupKV, if_pos rfl]
      exact lookupKV_diffStep_self k v0 acc
    · have hstep : lookupKV k (diffStep acc (k0, v0)) = lookupKV k acc :=
        lookupKV_diffStep_ne (k0, v0) k acc hik
      simp only [lookupKV, if_neg hik, hstep]

theorem keysSorted_diffObj {A : List (String × Json)} (B : List (String × Json))
    (hA : keysSorted A) : keysSorted (diffObj A B) := by
  unfold diffObj
  have hfil : keysSorted (A.filter fun p => containsKV p.1 B) := keysSorted_filter _ hA
  generalize A.filter (fun p => containsKV p.1 B) = acc at hfil
  clear hA
  induction B generalizing acc with
  | nil => exact hfil
  | cons kv rest ih =>
    rw [List.foldl_cons]
    exact ih _ (keysSorted_diffStep kv hfil)

/-- The central characterization of the differ: the binding of the produced
diff at each top-level key, in terms of the two inputs. -/
theorem lookupKV_diffObj (A B : List (String × Json)) (k : String)
    (hB : keysSorted B) :
    lookupKV k (diffObj A B) =
      match lookupKV k B with
      | none => none
      | some bv =>
        match lookupKV k A with
        | none => some bv
        | some av =>
          match bv.asObject with
          | none => some bv
          | some bO =>
            match av.asObject with
            | none => some (Json.obj bO)
            | some aO => some (Json.obj (mergeInner aO bO)) := by
  unfold diffObj
  rw [lookupKV_foldl_diffStep B _ k (keysSorted_nodup hB)]
  rw [lookupKV_filterKeys (fun j => containsKV j B) k A]
  cases hb : lookupKV k B with
  | none =>
    have : containsKV k B = false := by simp [containsKV, hb]
    simp [this]
  | some bv =>
    have : containsKV k B = true := by simp [containsKV, hb]
    simp [this]

/-! ### Canonicity of the differ's output -/

theorem mem_of_lookupKV {k : String} {v : Json} {l : List (String × Json)}
    (h : lookupKV k l = some v) : (k, v) ∈ l := by
  induction l with
  | nil => exact absurd h (by simp [lookupKV])
  | cons hd tl ih =>
    obtain ⟨k', v'⟩ := hd
    simp only [lookupKV] at h
    by_cases hk : k = k'
    · rw [if_pos hk] at h
      cases Option.some.inj h
      exact hk ▸ List.mem_cons_self _ _
    · rw [if_neg hk] at h
      exact List.mem_cons_of_mem _ (ih h)

theorem Json.eq_obj_of_asObject : ∀ {v : Json} {entries : List (String × Json)},
    v.asObject = some entries → v = Json.obj entries
  | .obj _, _, h => congrArg Json.obj (Option.some.inj h)

theorem canon2_insertKV (k : String) (v : Json) {l : List (String × Json)}
    (hc : canon2 l) (hv : ∀ inner, v = Json.obj inner → keysSorted inner) :
    canon2 (insertKV k v l) := by
  refine ⟨keysSorted_insertKV k v hc.1, ?_⟩
  intro p hp inner hinner
  rcases mem_insertKV hp with rfl | hmem
  · exact hv inner hinner
  · exact hc.2 p hmem inner hinner

theorem canon2_removeKV (k : String) {l : List (String × Json)} (hc : canon2 l) :
    canon2 (removeKV k l) :=
  ⟨keysSorted_removeKV k hc.1, fun p hp => hc.2 p (mem_removeKV hp)⟩

theorem canon2_filterKeys (q : String × Json → Bool) {l : List (String × Json)}
    (hc : canon2 l) : canon2 (l.filter q) :=
  ⟨keysSorted_filter q hc.1, fun p hp => hc.2 p (List.mem_filter.mp hp).1⟩

theorem inner_of_canon2_lookupKV {l : List (String × Json)} {k : String} {v : Json}
    (hc : canon2 l) (h : lookupKV k l = some v) :
    ∀ inner, v = Json.obj inner → keysSorted inner :=
  fun inner hv => hc.2 (k, v) (mem_of_lookupKV h) inner hv

theorem canon2_mergeStep (kv : String × Json) {acc : List (String × Json)}
    (hacc : canon2 acc) (hkv : ∀ inner, kv.2 = Json.obj inner → keysSorted inner) :
    canon2 (mergeStep acc kv) := by
  unfold mergeStep
  cases lookupKV kv.1 acc with
  | none => exact canon2_insertKV _ _ hacc hkv
  | some old_v =>
    dsimp only
    by_cases he : old_v = kv.2
    · rw [if_pos he]
      exact canon2_removeKV _ hacc
    · rw [if_neg he]
      exact canon2_insertKV _ _ hacc hkv

theorem canon2_diffStep (kv : String × Json) {acc : List (String × Json)}
    (hacc : canon2 acc) (hkv : ∀ inner, kv.2 = Json.obj inner → keysSorted inner) :
    canon2 (diffStep acc kv) := by
  unfold diffStep
  cases hl : lookupKV kv.1 acc with
  | none => exact canon2_insertKV _ _ hacc hkv
  | some av =>
    dsimp only
    cases hv2 : kv.2.asObject with
    | none => exact canon2_insertKV _ _ hacc hkv
    | some nd =>
      dsimp only
      have hnd : keysSorted nd := hkv nd (Json.eq_obj_of_asObject hv2)
      cases hav : av.asObject with
      | none =>
        refine canon2_insertKV _ _ hacc ?_
        intro inner hinner
        cases Json.obj.inj hinner
        exact hnd
      | some od =>
        have hod : keysSorted od :=
          inner_of_canon2_lookupKV hacc hl od (Json.eq_obj_of_asObject hav)
        refine canon2_insertKV _ _ hacc ?_
        intro inner hinner
        cases Json.obj.inj hinner
        exact keysSorted_mergeInner nd hod

theorem canon2_foldl_diffStep (rest : List (String × Json))
    {acc : List (String × Json)} (hacc : canon2 acc)
    (hrest : ∀ kv ∈ rest, ∀ inner, kv.2 = Json.obj inner → keysSorted inner) :
    canon2 (rest.foldl diffStep acc) := by
  induction rest generalizing acc with
  | nil => exact hacc
  | cons kv rest ih =>
    rw [List.foldl_cons]
    exact ih (canon2_diffStep kv hacc (hrest kv (List.mem_cons_self _ _)))
      (fun kv2 h2 => hrest kv2 (List.mem_cons_of_mem _ h2))

theorem canon2_diffObj {A B : List (String × Json)} (hA : canon2 A) (hB : canon2 B) :
    canon2 (diffObj A B) :=
  canon2_foldl_diffStep B (canon2_filterKeys _ hA) hB.2

/-! ### The client merge rule, pointwise -/

theorem keysSorted_unionKV {base : List (String × Json)} (overlay : List (String × Json))
    (h : keysSorted base) : keysSorted (unionKV base overlay) := by
  induction overlay generalizing base with
  | nil => exact h
  | cons kv rest ih =>
    rw [unionKV, List.foldl_cons]
    exact ih (keysSorted_insertKV _ _ h)

theorem lookupKV_unionKV (base overlay : List (String × Json)) (ik : String)
    (hnd : (overlay.map Prod.fst).Nodup) :
    lookupKV ik (unionKV base overlay) =
      match lookupKV ik overlay with
      | some x => some x
      | none => lookupKV ik base := by
  induction overlay generalizing base with
  | nil => simp [unionKV, lookupKV]
  | cons kv rest ih =>
    obtain ⟨k0, v0⟩ := kv
    simp only [List.map_cons, List.nodup_cons] at hnd
    obtain ⟨hk0, hnd'⟩ := hnd
    rw [unionKV, List.foldl_cons]
    have hrec : List.foldl (fun acc ikv => insertKV ikv.1 ikv.2 acc)
        (insertKV k0 v0 base) rest = unionKV (insertKV k0 v0 base) rest := rfl
    rw [hrec, ih _ hnd']
    by_cases hik : ik = k0
    · subst hik
      simp [lookupKV, lookupKV_insertKV, lookupKV_eq_none_of_not_mem ik rest hk0]
    · simp only [lookupKV, if_neg hik]
      rw [lookupKV_insertKV, if_neg hik]

theorem keysSorted_applyStep (kv : String × Json) {acc : List (String × Json)}
    (hacc : keysSorted acc) : keysSorted (applyStep acc kv) := by
  unfold applyStep
  cases kv.2.asObject with
  | none => exact keysSorted_insertKV _ _ hacc
  | some dObj =>
    dsimp only
    cases lookupKV kv.1 acc with
    | none => exact keysSorted_insertKV _ _ hacc
    | some cv =>
      dsimp only
      cases cv.asObject with
      | none => exact keysSorted_insertKV _ _ hacc
      | some cObj => exact keysSorted_insertKV _ _ hacc

theorem lookupKV_applyStep_ne (kv : String × Json) (j : String)
    (acc : List (String × Json)) (hne : j ≠ kv.1) :
    lookupKV j (applyStep acc kv) = lookupKV j acc := by
  unfold applyStep
  cases kv.2.asObject with
  | none => rw [lookupKV_insertKV, if_neg hne]
  | some dObj =>
    dsimp only
    cases lookupKV kv.1 acc with
    | none => rw [lookupKV_insertKV, if_neg hne]
    | some cv =>
      dsimp only
      cases cv.asObject with
      | none => rw [lookupKV_insertKV, if_neg hne]
      | some cObj => rw [lookupKV_insertKV, if_neg hne]

theorem lookupKV_applyStep_self (k : String) (v : Json) (acc : List (String × Json)) :
    lookupKV k (applyStep acc (k, v)) =
      match v.asObject with
      | none => some v
      | some dObj =>
        match lookupKV k acc with
        | some cv =>
          match cv.asObject with
          | some cObj => some (Json.obj (unionKV cObj dObj))
          | none => some v
        | none => some v := by
  unfold applyStep
  cases v.asObject with
  | none => rw [lookupKV_insertKV, if_pos rfl]
  | some dObj =>
    dsimp only
    cases lookupKV k acc with
    | none => rw [lookupKV_insertKV, if_pos rfl]
    | some cv =>
      dsimp only
      cases cv.asObject with
      | none => rw [lookupKV_insertKV, if_pos rfl]
      | some cObj => rw [lookupKV_insertKV, if_pos rfl]

theorem lookupKV_applyDiff (client d : List (String × Json)) (k : String)
    (hnd : (d.map Prod.fst).Nodup) :
    lookupKV k (applyDiff client d) =
      match lookupKV k d with
      | none => lookupKV k client
      | some dv =>
        match dv.asObject with
        | none => some dv
        | some dObj =>
          match lookupKV k client with
          | some cv =>
            match cv.asObject with
            | some cObj => some (Json.obj (unionKV cObj dObj))
            | none => some dv
          | none => some dv := by
  induction d generalizing client with
  | nil => simp [applyDiff, lookupKV]
  | cons kv rest ih =>
    obtain ⟨k0, v0⟩ := kv
    simp only [List.map_cons, List.nodup_cons] at hnd
    obtain ⟨hk0, hnd'⟩ := hnd
    rw [applyDiff, List.foldl_cons]
    have hrec : List.foldl applyStep (applyStep client (k0, v0)) rest =
        applyDiff (applyStep client (k0, v0)) rest := rfl
    rw [hrec, ih _ hnd']
    by_cases hik : k = k0
    · subst hik
      rw [lookupKV_eq_none_of_not_mem k rest hk0]
      simp only [lookupKV, if_pos rfl]
      exact lookupKV_applyStep_self k v0 client
    · have hstep : lookupKV k (applyStep client (k0, v0)) = lookupKV k client :=
        lookupKV_applyStep_ne (k0, v0) k client hik
      simp only [lookupKV, if_neg hik, hstep]

/-! ### Extensionality of canonical association lists -/

theorem lookupKV_tail_eq_none {k : String} {v : Json} {tl : List (String × Json)}
    (h : keysSorted ((k, v) :: tl)) : lookupKV k tl = none := by
  rw [keysSorted, List.pairwise_cons] at h
  refine lookupKV_eq_none_of_not_mem k tl ?_
  intro hmem
  obtain ⟨p, hp, hfst⟩ := List.mem_map.mp hmem
  exact ne_of_strLt (h.1 p hp) hfst.symm

theorem eq_of_keysSorted_of_lookupKV {l1 l2 : List (String × Json)}
    (h1 : keysSorted l1) (h2 : keysSorted l2)
    (h : ∀ k, lookupKV k l1 = lookupKV k l2) : l1 = l2 := by
  induction l1 generalizing l2 with
  | nil =>
    cases l2 with
    | nil => rfl
    | cons hd2 tl2 =>
      obtain ⟨k2, v2⟩ := hd2
      have := h k2
      simp [lookupKV] at this
  | cons hd1 tl1 ih =>
    obtain ⟨k1, v1⟩ := hd1
    cases l2 with
    | nil =>
      have := h k1
      simp [lookupKV] at this
    | cons hd2 tl2 =>
      obtain ⟨k2, v2⟩ := hd2
      have hk : k1 = k2 := by
        by_contra hne
        have ha : lookupKV k1 tl2 = some v1 := by
          have := h k1
          rw [lookupKV, if_pos rfl, lookupKV, if_neg hne] at this
          exact this.symm
        have hb : lookupKV k2 tl1 = some v2 := by
          have := h k2
          rw [lookupKV, if_neg (fun hh => hne hh.symm), lookupKV, if_pos rfl] at this
          exact this
        rw [keysSorted, List.pairwise_cons] at h1 h2
        have hlt1 : strLt k1 k2 = true := h1.1 _ (mem_of_lookupKV hb)
        have hlt2 : strLt k2 k1 = true := h2.1 _ (mem_of_lookupKV ha)
        exact absurd (strLt_trans hlt1 hlt2) (by simp [strLt_irrefl])
      subst hk
      have hv : v1 = v2 := by
        have := h k1
        rw [lookupKV, if_pos rfl, lookupKV, if_pos rfl] at this
        exact Option.some.inj this
      subst hv
      have htl : tl1 = tl2 := by
        rw [keysSorted, List.pairwise_cons] at h1 h2
        refine ih h1.2 h2.2 ?_
        intro k
        by_cases hkk : k = k1
        · subst hkk
          rw [lookupKV_tail_eq_none (List.pairwise_cons.mpr h1),
            lookupKV_tail_eq_none (List.pairwise_cons.mpr h2)]
        · have := h k
          rw [lookupKV, if_neg hkk, lookupKV, if_neg hkk] at this
          exact this
      rw [htl]

theorem unionKV_self {aO : List (String × Json)} (h : keysSorted aO) :
    unionKV aO aO = aO := by
  refine eq_of_keysSorted_of_lookupKV (keysSorted_unionKV _ h) h ?_
  intro k
  rw [lookupKV_unionKV _ _ _ (keysSorted_nodup h)]
  cases lookupKV k aO <;> simp

/-- Merging the diff of two inner objects into the old one is the same as
merging the new one into the old one: the suppressed equal keys are already
present, the retained old-only keys overwrite themselves. -/
theorem unionKV_mergeInner {aO bO : List (String × Json)}
    (ha : keysSorted aO) (hb : keysSorted bO) :
    unionKV aO (mergeInner aO bO) = unionKV aO bO := by
  refine eq_of_keysSorted_of_lookupKV (keysSorted_unionKV _ ha) (keysSorted_unionKV _ ha) ?_
  intro ik
  rw [lookupKV_unionKV _ _ _ (keysSorted_nodup (keysSorted_mergeInner bO ha)),
    lookupKV_unionKV _ _ _ (keysSorted_nodup hb),
    lookupKV_mergeInner aO bO ik ha (keysSorted_nodup hb)]
  cases hbO : lookupKV ik bO with
  | none => cases lookupKV ik aO <;> simp
  | some nv =>
    cases haO : lookupKV ik aO with
    | none => simp
    | some ov =>
      by_cases he : ov = nv
      · simp [he, haO]
      · simp [he]

/-- C1 (amended): for canonical JSON objects `A` and `B`, applying the diff
`create_json_snapshot(A, B)` to a client holding `A` under the one-level merge
rule yields, at every top-level key `k` of `B`: exactly `B[k]` whenever
`B[k]` is not an object, or `A` lacks `k`, or `A[k]` is not an object; and
`A[k]` merged key-by-key with `B[k]` (so inner keys of `A[k]` absent from
`B[k]` persist) when both are objects.  The original claim — exactly `B`
restricted to the top-level keys of `B` — fails in the last case; see the
counterexample. -/
theorem diff_apply_reconstruction (A B dO : List (String × Json))
    (hA : canon2 A) (hB : canon2 B)
    (hd : create_json_snapshot (Json.obj A) (Json.obj B) = some (Json.obj dO))
    (k : String) (bv : Json) (hk : lookupKV k B = some bv) :
    lookupKV k (applyDiff A dO) =
      some (match lookupKV k A with
        | none => bv
        | some av =>
          match av.asObject, bv.asObject with
          | some aO, some bO => Json.obj (unionKV aO bO)
          | _, _ => bv) := by
  rw [create_json_snapshot] at hd
  by_cases heq : Json.obj A = Json.obj B
  · rw [if_pos heq] at hd
    have hdO : dO = [] := (Json.obj.inj (Option.some.inj hd)).symm ▸ rfl
    subst hdO
    have hAB : A = B := Json.obj.inj heq
    subst hAB
    have happly : applyDiff A [] = A := rfl
    rw [happly, hk]
    cases bv with
    | obj bO =>
      have hbO : keysSorted bO := inner_of_canon2_lookupKV hA hk bO rfl
      dsimp only [Json.asObject]
      rw [unionKV_self hbO]
    | null => rfl
    | bool b => rfl
    | num n => rfl
    | str s => rfl
    | arr es => rfl
  · rw [if_neg heq] at hd
    simp only [Json.asObject] at hd
    have hdO : dO = diffObj A B := (Json.obj.inj (Option.some.inj hd)).symm
    subst hdO
    have hsorted : keysSorted (diffObj A B) := keysSorted_diffObj B hA.1
    rw [lookupKV_applyDiff A _ k (keysSorted_nodup hsorted),
      lookupKV_diffObj A B k hB.1, hk]
    cases hA2 : lookupKV k A with
    | none =>
      dsimp only
      cases hbv : bv.asObject <;> rfl
    | some av =>
      dsimp only
      cases hbv : bv.asObject with
      | none =>
        simp only [hbv]
        cases hav : av.asObject <;> rfl
      | some bO =>
        simp only [hbv]
        cases hav : av.asObject with
        | none =>
          simp only [hav]
          rw [Json.eq_obj_of_asObject hbv]
          dsimp only [Json.asObject]
        | some aO =>
          simp only [hav]
          dsimp only [Json.asObject]
          have haO : keysSorted aO :=
            inner_of_canon2_lookupKV hA hA2 aO (Json.eq_obj_of_asObject hav)
          have hbO : keysSorted bO :=
            inner_of_canon2_lookupKV hB hk bO (Json.eq_obj_of_asObject hbv)
          rw [unionKV_mergeInner haO hbO]

/-- C1 is false as stated: with `A = {"c":{"a":"1","b":"2"}}` and
`B = {"c":{"a":"1"}}`, the diff is `{"c":{"b":"2"}}`, and applying it to a
client holding `A` leaves the client with `{"c":{"a":"1","b":"2"}}` at key
`"c"` — not `B`'s value `{"a":"1"}`: the inner key `"b"`, deleted in `B`,
persists on the client. -/
theorem diff_apply_counterexample :
    create_json_snapshot
        (Json.obj [("c", Json.obj [("a", Json.str "1"), ("b", Json.str "2")])])
        (Json.obj [("c", Json.obj [("a", Json.str "1")])]) =
      some (Json.obj [("c", Json.obj [("b", Json.str "2")])]) ∧
    lookupKV "c"
        (applyDiff [("c", Json.obj [("a", Json.str "1"), ("b", Json.str "2")])]
          [("c", Json.obj [("b", Json.str "2")])]) =
      some (Json.obj [("a", Json.str "1"), ("b", Json.str "2")]) ∧
    lookupKV "c" [("c", Json.obj [("a", Json.str "1")])] =
      some (Json.obj [("a", Json.str "1")]) ∧
    Json.obj [("a", Json.str "1"), ("b", Json.str "2")] ≠
      Json.obj [("a", Json.str "1")] := by
  refine ⟨rfl, rfl, rfl, ?_⟩
  decide

/-- Witness for `diff_apply_reconstruction` at the concrete pair of documents
of the counterexample. -/
theorem diff_apply_reconstruction_witness :
    lookupKV "c"
        (applyDiff [("c", Json.obj [("a", Json.str "1"), ("b", Json.str "2")])]
          [("c", Json.obj [("b", Json.str "2")])]) =
      some (Json.obj [("a", Json.str "1"), ("b", Json.str "2")]) := by
  rw [diff_apply_reconstruction
    [("c", Json.obj [("a", Json.str "1"), ("b", Json.str "2")])]
    [("c", Json.obj [("a", Json.str "1")])]
    [("c", Json.obj [("b", Json.str "2")])]
    (by decide) (by decide) (by rfl) "c" (Json.obj [("a", Json.str "1")]) (by rfl)]
  rfl

/-- C9: `create_json_snapshot` is partial at its public interface.  When the
two documents are not deeply equal and either is not a JSON object at the top
level, the function hits the `as_object_mut().unwrap()` / `as_object().unwrap()`
panic (modelled as `none`); when both are objects, or the documents are
deeply equal, it is total. -/
theorem create_json_snapshot_requires_objects (old_state new_state : Json) :
    (old_state ≠ new_state → old_state.isObject = false ∨ new_state.isObject = false →
      create_json_snapshot old_state new_state = none) ∧
    (old_state = new_state ∨ old_state.isObject = true ∧ new_state.isObject = true →
      (create_json_snapshot old_state new_state).isSome = true) := by
  constructor
  · intro hne hobj
    rw [create_json_snapshot, if_neg hne]
    cases old_state <;> cases new_state <;>
      first
      | rfl
      | (simp [Json.isObject, Json.asObject] at hobj)
  · intro h
    rcases h with h | ⟨h1, h2⟩
    · rw [create_json_snapshot, if_pos h]
      rfl
    · rw [create_json_snapshot]
      by_cases he : old_state = new_state
      · rw [if_pos he]
        rfl
      · rw [if_neg he]
        cases old_state <;> cases new_state <;>
          first
          | rfl
          | (simp [Json.isObject, Json.asObject] at h1 h2)

/-- Witness for `create_json_snapshot_requires_objects`: a non-object argument
panics, two objects succeed. -/
theorem create_json_snapshot_requires_objects_witness :
    create_json_snapshot (Json.str "x") Json.null = none ∧
    (create_json_snapshot (Json.obj []) (Json.obj [("a", Json.null)])).isSome = true :=
  ⟨(create_json_snapshot_requires_objects (Json.str "x") Json.null).1 (by decide) (Or.inl rfl),
    (create_json_snapshot_requires_objects (Json.obj []) (Json.obj [("a", Json.null)])).2
      (Or.inr ⟨rfl, rfl⟩)⟩

/-! ### The frame codec (`src/frame.rs`) -/

/-- Type of payload (`FrameData` in `src/frame.rs`).  `code` is `u32`. -/
inductive FrameData where
  | Subscribe (channels : List String) : FrameData
  | Unsubscribe (channels : List String) : FrameData
  | Ready : FrameData
  | Ok : FrameData
  | Err (code : Nat) (reason : String) : FrameData
  | Data (compressed : Bool) (payload : String) : FrameData
  deriving DecidableEq

/-- Communication frame (`Frame` in `src/frame.rs`); `cseq` is `u32`, so the
meaningful values are those below `2^32`. -/
structure Frame where
  cseq : Nat
  data : FrameData
  deriving DecidableEq

/-- `Frame::create_ok_frame`. -/
def Frame.create_ok_frame (client_frame : Frame) : Frame :=
  ⟨client_frame.cseq, .Ok⟩

/-- `Frame::create_err_frame`. -/
def Frame.create_err_frame (client_frame : Frame) (code : Nat) (reason : String) : Frame :=
  ⟨client_frame.cseq, .Err code reason⟩

/-- One lowercase hexadecimal digit. -/
def hexDigit (n : Nat) : Char :=
  if n < 10 then Char.ofNat (48 + n) else Char.ofNat (87 + n)

/-- Four lowercase hexadecimal digits, as in a JSON `\uXXXX` escape. -/
def hex4 (n : Nat) : String :=
  String.mk [hexDigit (n / 4096 % 16), hexDigit (n / 256 % 16),
    hexDigit (n / 16 % 16), hexDigit (n % 16)]

/-- JSON string escaping as `serde_json` performs it: quote, backslash and the
short control escapes, `\uXXXX` for the remaining control characters. -/
def escapeChar (c : Char) : String :=
  if c = '"' then "\\\""
  else if c = '\\' then "\\\\"
  else if c = '\x08' then "\\b"
  else if c = '\x0c' then "\\f"
  else if c = '\n' then "\\n"
  else if c = '\r' then "\\r"
  else if c = '\t' then "\\t"
  else if c.toNat < 32 then "\\u" ++ hex4 c.toNat
  else String.singleton c

/-- A JSON string literal: escaped and double-quoted. -/
def quoteStr (s : String) : String :=
  "\"" ++ String.join (s.data.map escapeChar) ++ "\""

mutual

/-- Compact JSON serialization, modelling `serde_json::Value::to_string`
(`BTreeMap`-backed objects print their entries in key order, which canonical
values already are in). -/
def Json.serialize : Json → String
  | .null => "null"
  | .bool true => "true"
  | .bool false => "false"
  | .num n => toString n
  | .str s => quoteStr s
  | .arr elems => "[" ++ serializeList elems ++ "]"
  | .obj entries => "\x7b" ++ serializeKVs entries ++ "\x7d"

/-- Comma-separated serialization of array elements. -/
def serializeList : List Json → String
  | [] => ""
  | [x] => x.serialize
  | x :: y :: rest => x.serialize ++ "," ++ serializeList (y :: rest)

/-- Comma-separated serialization of object entries. -/
def serializeKVs : List (String × Json) → String
  | [] => ""
  | [(k, v)] => quoteStr k ++ ":" ++ v.serialize
  | (k, v) :: y :: rest => quoteStr k ++ ":" ++ v.serialize ++ "," ++ serializeKVs (y :: rest)

end

/-- `Frame::create_data_frame` from `src/frame.rs`.  The URI-safe LZ-string
compressor is the external `lz_string` crate; it is passed in as the function
`compress_uri` (its `unwrap` never fails on UTF-8 input, per the crate's
contract assumed by the source). -/
def Frame.create_data_frame (compress_uri : String → String) (client_frame : Frame)
    (data : Json) : Frame :=
  let cseq := client_frame.cseq
  let text := data.serialize
  let compressed : Bool := decide (text.utf8ByteSize > 100)
  ⟨cseq, .Data compressed (if compressed then compress_uri text else text)⟩

/-- The JSON document a `Frame` serializes to under its `serde` derives: a
`cseq` field, the discriminant in a `type` field with the lowercase
(camelCase-renamed) variant name, and the variant's fields flattened as
siblings.  Entries are listed in `BTreeMap` key order. -/
def encodeFrame (f : Frame) : Json :=
  match f.data with
  | .Subscribe channels =>
    .obj [("channels", .arr (channels.map Json.str)), ("cseq", .num (Int.ofNat f.cseq)),
      ("type", .str "subscribe")]
  | .Unsubscribe channels =>
    .obj [("channels", .arr (channels.map Json.str)), ("cseq", .num (Int.ofNat f.cseq)),
      ("type", .str "unsubscribe")]
  | .Ready => .obj [("cseq", .num (Int.ofNat f.cseq)), ("type", .str "ready")]
  | .Ok => .obj [("cseq", .num (Int.ofNat f.cseq)), ("type", .str "ok")]
  | .Err code reason =>
    .obj [("code", .num (Int.ofNat code)), ("cseq", .num (Int.ofNat f.cseq)), ("reason", .str reason),
      ("type", .str "err")]
  | .Data compressed payload =>
    .obj [("compressed", .bool compressed), ("cseq", .num (Int.ofNat f.cseq)),
      ("payload", .str payload), ("type", .str "data")]

/-- Decode a JSON array of strings (the `channels` field). -/
def decodeStrings : List Json → Option (List String)
  | [] => some []
  | .str s :: rest => (decodeStrings rest).map fun tl => s :: tl
  | _ => none

/-- Read a `u32` field: a JSON integer within `u32` range (a non-negative
integer strictly below `2^32`). -/
def decodeU32 (v : Json) : Option Nat :=
  match v with
  | .num (.ofNat m) => if m < 4294967296 then some m else none
  | _ => none

/-- Read a JSON string value. -/
def getStr : Json → Option String
  | .str s => some s
  | _ => none

/-- Read a JSON boolean value. -/
def getBool : Json → Option Bool
  | .bool b => some b
  | _ => none

/-- Read a JSON array value. -/
def getArr : Json → Option (List Json)
  | .arr xs => some xs
  | _ => none

/-- Read the `channels` field: an array of strings. -/
def decodeChannels (entries : List (String × Json)) : Option (List String) :=
  (lookupKV "channels" entries).bind fun chVal =>
  (getArr chVal).bind fun chList =>
  decodeStrings chList

/-- Dispatch on the already-read `type` tag (the lowercase, camelCase-renamed
variant names of the `serde` derive). -/
def decodeByTag (cseq : Nat) (tag : String) (entries : List (String × Json)) :
    Option Frame :=
  if tag = "subscribe" then
    (decodeChannels entries).map fun channels => ⟨cseq, .Subscribe channels⟩
  else if tag = "unsubscribe" then
    (decodeChannels entries).map fun channels => ⟨cseq, .Unsubscribe channels⟩
  else if tag = "ready" then some ⟨cseq, .Ready⟩
  else if tag = "ok" then some ⟨cseq, .Ok⟩
  else if tag = "err" then
    (lookupKV "code" entries).bind fun codeVal =>
    (decodeU32 codeVal).bind fun code =>
    (lookupKV "reason" entries).bind fun reasonVal =>
    (getStr reasonVal).map fun reason => ⟨cseq, .Err code reason⟩
  else if tag = "data" then
    (lookupKV "compressed" entries).bind fun cVal =>
    (getBool cVal).bind fun compressed =>
    (lookupKV "payload" entries).bind fun pVal =>
    (getStr pVal).map fun payload => ⟨cseq, .Data compressed payload⟩
  else none

/-- Decoding a frame from its JSON document, modelling the `serde` derive
used by `Frame::from_str` (internally tagged by `type`, flattened fields,
`u32` range checks on `cseq` and `code`). -/
def decodeFrame (v : Json) : Option Frame :=
  (v.asObject).bind fun entries =>
  (lookupKV "cseq" entries).bind fun cseqVal =>
  (decodeU32 cseqVal).bind fun cseq =>
  (lookupKV "type" entries).bind fun tagVal =>
  (getStr tagVal).bind fun tag =>
  decodeByTag cseq tag entries

theorem decodeU32_num (n : Nat) (h : n < 4294967296) :
    decodeU32 (Json.num (Int.ofNat n)) = some n := by
  simp [decodeU32, h]

theorem decodeStrings_map_str (channels : List String) :
    decodeStrings (channels.map Json.str) = some channels := by
  induction channels with
  | nil => rfl
  | cons hd tl ih => simp [decodeStrings, ih]

/-- C5: a `Data` frame built by `create_data_frame` carries the raw compact
JSON text with `compressed=false` when that text is at most 100 bytes long,
and the URI-safe LZ-string compression of the text with `compressed=true`
when it is strictly longer than 100 bytes. -/
theorem data_frame_compression_threshold (compress_uri : String → String)
    (req : Frame) (payload : Json) :
    (payload.serialize.utf8ByteSize ≤ 100 →
      (Frame.create_data_frame compress_uri req payload).data =
        .Data false payload.serialize) ∧
    (100 < payload.serialize.utf8ByteSize →
      (Frame.create_data_frame compress_uri req payload).data =
        .Data true (compress_uri payload.serialize)) := by
  constructor
  · intro h
    have hn : ¬ payload.serialize.utf8ByteSize > 100 := by omega
    simp [Frame.create_data_frame, hn]
  · intro h
    simp [Frame.create_data_frame, h]

/-- Witness for `data_frame_compression_threshold`: an  11-byte payload stays
raw and uncompressed, a 103-byte payload is flagged and compressed. -/
theorem data_frame_compression_threshold_witness :
    (Frame.create_data_frame id ⟨2, .Ready⟩ (Json.obj [("t", Json.str "xyz")])).data =
      .Data false "\x7b\"t\":\"xyz\"\x7d" ∧
    (Frame.create_data_frame id ⟨2, .Ready⟩
        (Json.str (String.mk (List.replicate 101 'a')))).data =
      .Data true (id (Json.str (String.mk (List.replicate 101 'a'))).serialize) := by
  constructor
  · rw [(data_frame_compression_threshold id ⟨2, .Ready⟩
      (Json.obj [("t", Json.str "xyz")])).1 (by decide)]
    rfl
  · exact (data_frame_compression_threshold id ⟨2, .Ready⟩
      (Json.str (String.mk (List.replicate 101 'a')))).2 (by decide)

/-- C8: every server response constructor copies the request's `cseq`: the
`Ok`, `Err` and `Data` frames built from a client frame all echo its
sequence tag. -/
theorem response_cseq_echo (req : Frame) (code : Nat) (reason : String)
    (payload : Json) (compress_uri : String → String) :
    (Frame.create_ok_frame req).cseq = req.cseq ∧
    (Frame.create_err_frame req code reason).cseq = req.cseq ∧
    (Frame.create_data_frame compress_uri req payload).cseq = req.cseq :=
  ⟨rfl, rfl, rfl⟩

/-- C10: decoding the JSON document a frame encodes to yields the frame back,
for every frame whose `u32` fields are in range (which every Rust `Frame`
value satisfies by construction). -/
theorem decode_encode_frame (f : Frame) (hcseq : f.cseq < 4294967296)
    (hcode : ∀ code reason, f.data = .Err code reason → code < 4294967296) :
    decodeFrame (encodeFrame f) = some f := by
  obtain ⟨cseq, data⟩ := f
  simp only at hcseq
  cases data with
  | Subscribe channels =>
    rw [show decodeFrame (encodeFrame ⟨cseq, FrameData.Subscribe channels⟩) =
      (decodeU32 (Json.num (Int.ofNat cseq))).bind (fun c =>
        (decodeStrings (channels.map Json.str)).map
          fun chs => ⟨c, FrameData.Subscribe chs⟩) from rfl,
      decodeU32_num cseq hcseq]
    show (decodeStrings (channels.map Json.str)).map
      (fun chs => (⟨cseq, FrameData.Subscribe chs⟩ : Frame)) =
        some ⟨cseq, FrameData.Subscribe channels⟩
    rw [decodeStrings_map_str]
    rfl
  | Unsubscribe channels =>
    rw [show decodeFrame (encodeFrame ⟨cseq, FrameData.Unsubscribe channels⟩) =
      (decodeU32 (Json.num (Int.ofNat cseq))).bind (fun c =>
        (decodeStrings (channels.map Json.str)).map
          fun chs => ⟨c, FrameData.Unsubscribe chs⟩) from rfl,
      decodeU32_num cseq hcseq]
    show (decodeStrings (channels.map Json.str)).map
      (fun chs => (⟨cseq, FrameData.Unsubscribe chs⟩ : Frame)) =
        some ⟨cseq, FrameData.Unsubscribe channels⟩
    rw [decodeStrings_map_str]
    rfl
  | Ready =>
    rw [show decodeFrame (encodeFrame ⟨cseq, FrameData.Ready⟩) =
      (decodeU32 (Json.num (Int.ofNat cseq))).bind
        (fun c => some ⟨c, FrameData.Ready⟩) from rfl,
      decodeU32_num cseq hcseq]
    rfl
  | Ok =>
    rw [show decodeFrame (encodeFrame ⟨cseq, FrameData.Ok⟩) =
      (decodeU32 (Json.num (Int.ofNat cseq))).bind
        (fun c => some ⟨c, FrameData.Ok⟩) from rfl,
      decodeU32_num cseq hcseq]
    rfl
  | Err code reason =>
    have hcd : code < 4294967296 := hcode code reason rfl
    rw [show decodeFrame (encodeFrame ⟨cseq, FrameData.Err code reason⟩) =
      (decodeU32 (Json.num (Int.ofNat cseq))).bind (fun c =>
        (decodeU32 (Json.num (Int.ofNat code))).bind
          fun cd => some ⟨c, FrameData.Err cd reason⟩) from rfl,
      decodeU32_num cseq hcseq]
    show (decodeU32 (Json.num (Int.ofNat code))).bind
      (fun cd => some (⟨cseq, FrameData.Err cd reason⟩ : Frame)) =
        some ⟨cseq, FrameData.Err code reason⟩
    rw [decodeU32_num code hcd]
    rfl
  | Data compressed payload =>
    rw [show decodeFrame (encodeFrame ⟨cseq, FrameData.Data compressed payload⟩) =
      (decodeU32 (Json.num (Int.ofNat cseq))).bind
        (fun c => some ⟨c, FrameData.Data compressed payload⟩) from rfl,
      decodeU32_num cseq hcseq]
    rfl

/-- Witness for `decode_encode_frame` at two concrete frames, one `Err` and
one `Subscribe`. -/
theorem decode_encode_frame_witness :
    decodeFrame (encodeFrame ⟨7, .Err 404 "nope"⟩) = some ⟨7, .Err 404 "nope"⟩ ∧
    decodeFrame (encodeFrame ⟨1, .Subscribe ["news"]⟩) =
      some ⟨1, .Subscribe ["news"]⟩ :=
  ⟨decode_encode_frame ⟨7, .Err 404 "nope"⟩ (by decide)
      (fun code reason h => by cases h; decide),
    decode_encode_frame ⟨1, .Subscribe ["news"]⟩ (by decide)
      (fun code reason h => by cases h)⟩

/-! ### Channels, client sessions and the broker (`src/channel`, `src/client.rs`, `src/broker.rs`) -/

/-- A channel (the `Channel` trait of `src/channel/mod.rs`): identity is the
name (`Hash`/`PartialEq` delegate to it); `extract_data` is the JSON value
the channel produces from the backing state at the moment of the `Ready`
handling, `none` when the extraction fails (`Result::Err`). -/
structure Channel where
  name : String
  extract_data : Option Json
  deriving DecidableEq

/-- The broker-relevant state of a client session (`Client` in
`src/client.rs`): the subscription set (a `HashSet` keyed by channel name,
modelled as a duplicate-free list in unspecified order) and the last
delivered message.  The outbound socket half is modelled by returning the
frames the broker sends. -/
structure Client where
  subscriptions : List String
  last_message : Option Json
  deriving DecidableEq

/-- `Client::new`: no subscriptions, `last_message` starts as `{}`. -/
def Client.new : Client := ⟨[], some (Json.obj [])⟩

/-- `Client::subscribe` on the name-keyed `HashSet`: inserting an existing
member is a no-op. -/
def Client.do_subscribe (client : Client) (chan : String) : Client :=
  if chan ∈ client.subscriptions then client
  else { client with subscriptions := client.subscriptions ++ [chan] }

/-- `Client::unsubscribe`: removing an absent member is a no-op. -/
def Client.do_unsubscribe (client : Client) (chan : String) : Client :=
  { client with subscriptions := client.subscriptions.filter fun c => c ≠ chan }

/-- Channel subscription events (`ManageSubscription` in `src/broker.rs`). -/
inductive ManageSubscription where
  | Subscribe
  | Unsubscribe
  deriving DecidableEq

/-- `ChannelMap` lookup (`HashMap<String, Arc<dyn Channel>>` keyed by
`channel.name()`). -/
def findChannel (chan_map : List Channel) (name : String) : Option Channel :=
  chan_map.find? fun c => c.name == name

/-- `Broker::manage_subscription` (`src/broker.rs`): partition the requested
names against the registry; on any unknown name reply `Err 404` and leave
the subscription set untouched; otherwise apply every name and reply `Ok`. -/
def manage_subscription (chan_map : List Channel) (client : Client) (frame : Frame)
    (channels : List String) (mode : ManageSubscription) : Client × Frame :=
  let requested_channels := channels.filter fun chan => (findChannel chan_map chan).isSome
  let not_registered := channels.filter fun chan => (findChannel chan_map chan).isNone
  if not_registered.isEmpty then
    let client := requested_channels.foldl
      (fun c chan =>
        match mode with
        | .Subscribe => c.do_subscribe chan
        | .Unsubscribe => c.do_unsubscribe chan)
      client
    (client, Frame.create_ok_frame frame)
  else
    (client,
      Frame.create_err_frame frame 404
        ("Following channels were not found: " ++ String.intercalate "," not_registered))

/-- The payload loop of `Broker::fetch_data_from_channels`: for every
subscribed channel, `extract_data(&state).unwrap()` (`none` models the
panic), inserting the result into a `BTreeMap` keyed by the channel name. -/
def buildPayload (chan_map : List Channel) : List String → Option (List (String × Json))
  | [] => some []
  | name :: rest =>
    (findChannel chan_map name).bind fun chan =>
    chan.extract_data.bind fun data =>
    (buildPayload chan_map rest).bind fun payload =>
    some (insertKV chan.name data payload)

/-- `Broker::fetch_data_from_channels` (`src/broker.rs`): build the
name-ordered payload of all subscribed channels, take the previous snapshot
(`take_last_message().unwrap()`), diff it against the payload, store the full
payload as the new baseline and send a data frame carrying the diff.
`none` models the panics (`extract_data` unwrap, absent snapshot, non-object
snapshot). -/
def fetch_data_from_channels (compress_uri : String → String) (chan_map : List Channel)
    (client : Client) (frame : Frame) : Option (Client × Frame) :=
  (buildPayload chan_map client.subscriptions).bind fun payloadEntries =>
  client.last_message.bind fun snapshot =>
  (create_json_snapshot snapshot (Json.obj payloadEntries)).bind fun snapshotDiff =>
  some ({ client with last_message := some (Json.obj payloadEntries) },
    Frame.create_data_frame compress_uri frame snapshotDiff)

/-- Specializations of events (`EventData` in `src/broker.rs`). -/
inductive EventData where
  | NewClient (client : Client)
  | ClientFrame (frame : Frame)
  | Disconnect
  deriving DecidableEq

/-- Events occurring on a client's websocket; the socket address is modelled
as a natural number. -/
structure Event where
  addr : Nat
  data : EventData
  deriving DecidableEq

/-- Insert (or replace) a session in the broker's client map. -/
def insertClient (addr : Nat) (client : Client) (m : List (Nat × Client)) :
    List (Nat × Client) :=
  (addr, client) :: m.filter fun p => p.1 ≠ addr

/-- Remove a session from the broker's client map. -/
def removeClient (addr : Nat) (m : List (Nat × Client)) : List (Nat × Client) :=
  m.filter fun p => p.1 ≠ addr

/-- Event dispatcher state (`Broker` in `src/broker.rs`): the session map and
the read-only channel registry. -/
structure Broker where
  client_map : List (Nat × Client)
  channel_map : List Channel
  deriving DecidableEq

/-- `Broker::handle_event`: the result is the updated broker plus the frames
sent, or `none` where the Rust code panics — `get_client`'s
`client_map.get_mut(&addr).unwrap()` on an unknown address, the
`unreachable!()` arm for inbound `Ok`/`Err`/`Data` frames, and the panics
inside `fetch_data_from_channels`. -/
def Broker.handle_event (compress_uri : String → String) (b : Broker) (event : Event) :
    Option (Broker × List (Nat × Frame)) :=
  match event.data with
  | .NewClient client =>
    some ({ b with client_map := insertClient event.addr client b.client_map }, [])
  | .Disconnect =>
    some ({ b with client_map := removeClient event.addr b.client_map }, [])
  | .ClientFrame frame =>
    match frame.data with
    | .Subscribe channels =>
      (List.lookup event.addr b.client_map).bind fun client =>
        let r := manage_subscription b.channel_map client frame channels .Subscribe
        some ({ b with client_map := insertClient event.addr r.1 b.client_map },
          [(event.addr, r.2)])
    | .Unsubscribe channels =>
      (List.lookup event.addr b.client_map).bind fun client =>
        let r := manage_subscription b.channel_map client frame channels .Unsubscribe
        some ({ b with client_map := insertClient event.addr r.1 b.client_map },
          [(event.addr, r.2)])
    | .Ready =>
      (List.lookup event.addr b.client_map).bind fun client =>
        (fetch_data_from_channels compress_uri b.channel_map client frame).bind fun r =>
          some ({ b with client_map := insertClient event.addr r.1 b.client_map },
            [(event.addr, r.2)])
    | _ => none

/-- C2: subscription handling is all-or-nothing.  If any requested channel
name is unknown to the registry, the session is left untouched and the reply
is an `Err` frame with code 404 and reason `"Following channels were not
found: "` followed by the comma-joined unknown names (in request order); if
every name is known, each one is applied to the subscription set in order
and the reply is an `Ok` frame. -/
theorem manage_subscription_all_or_nothing (chan_map : List Channel) (client : Client)
    (frame : Frame) (channels : List String) (mode : ManageSubscription) :
    ((∃ chan ∈ channels, findChannel chan_map chan = none) →
      manage_subscription chan_map client frame channels mode =
        (client,
          Frame.create_err_frame frame 404
            ("Following channels were not found: " ++
              String.intercalate ","
                (channels.filter fun chan => (findChannel chan_map chan).isNone)))) ∧
    ((∀ chan ∈ channels, (findChannel chan_map chan).isSome) →
      manage_subscription chan_map client frame channels mode =
        (channels.foldl
          (fun c chan =>
            match mode with
            | .Subscribe => c.do_subscribe chan
            | .Unsubscribe => c.do_unsubscribe chan)
          client, Frame.create_ok_frame frame)) := by
  constructor
  · rintro ⟨chan, hmem, hnone⟩
    have hin : chan ∈ channels.filter fun c => (findChannel chan_map c).isNone :=
      List.mem_filter.mpr ⟨hmem, by simp [hnone]⟩
    have hne : ¬ (channels.filter fun c => (findChannel chan_map c).isNone).isEmpty = true := by
      intro he
      cases hfil : channels.filter fun c => (findChannel chan_map c).isNone with
      | nil => rw [hfil] at hin; cases hin
      | cons a l => rw [hfil] at he; exact Bool.noConfusion he
    simp only [manage_subscription]
    rw [if_neg hne]
  · intro hall
    have hempty : (channels.filter fun c => (findChannel chan_map c).isNone).isEmpty = true := by
      have : (channels.filter fun c => (findChannel chan_map c).isNone) = [] := by
        rw [List.filter_eq_nil_iff]
        intro a ha
        simp [Option.isNone_iff_eq_none, Option.isSome_iff_exists] at *
        obtain ⟨c, hc⟩ := hall a ha
        simp [hc]
      rw [this]
      rfl
    have hfil : channels.filter (fun chan => (findChannel chan_map chan).isSome) = channels :=
      List.filter_eq_self.mpr fun a ha => hall a ha
    simp only [manage_subscription]
    rw [if_pos hempty, hfil]

/-- Witness for `manage_subscription_all_or_nothing`: a request naming the
unknown channel `"ghost"` is rejected wholesale with the 404 reason, and a
request naming only `"reward"` subscribes it. -/
theorem manage_subscription_all_or_nothing_witness :
    manage_subscription [⟨"reward", some (Json.obj [("version", Json.str "alpha")])⟩]
      Client.new ⟨7, .Subscribe ["reward", "ghost"]⟩ ["reward", "ghost"] .Subscribe =
      (Client.new,
        Frame.create_err_frame ⟨7, .Subscribe ["reward", "ghost"]⟩ 404
          "Following channels were not found: ghost") ∧
    manage_subscription [⟨"reward", some (Json.obj [("version", Json.str "alpha")])⟩]
      Client.new ⟨1, .Subscribe ["reward"]⟩ ["reward"] .Subscribe =
      (⟨["reward"], some (Json.obj [])⟩, Frame.create_ok_frame ⟨1, .Subscribe ["reward"]⟩) := by
  constructor
  · rw [(manage_subscription_all_or_nothing
      [⟨"reward", some (Json.obj [("version", Json.str "alpha")])⟩]
      Client.new ⟨7, .Subscribe ["reward", "ghost"]⟩ ["reward", "ghost"] .Subscribe).1
      ⟨"ghost", by decide, by rfl⟩]
    rfl
  · rw [(manage_subscription_all_or_nothing
      [⟨"reward", some (Json.obj [("version", Json.str "alpha")])⟩]
      Client.new ⟨1, .Subscribe ["reward"]⟩ ["reward"] .Subscribe).2
      (by decide)]
    rfl

theorem buildPayload_none_of_failure (chan_map : List Channel) (subs : List String)
    (h : ∃ name ∈ subs, ∃ c, findChannel chan_map name = some c ∧ c.extract_data = none) :
    buildPayload chan_map subs = none := by
  induction subs with
  | nil =>
    obtain ⟨name, hmem, _⟩ := h
    cases hmem
  | cons hd tl ih =>
    obtain ⟨name, hmem, c, hfind, hext⟩ := h
    rcases List.mem_cons.mp hmem with rfl | hmem2
    · simp [buildPayload, hfind, hext]
    · have htl : buildPayload chan_map tl = none := ih ⟨name, hmem2, c, hfind, hext⟩
      cases hf : findChannel chan_map hd with
      | none => simp [buildPayload, hf]
      | some c0 =>
        cases he : c0.extract_data with
        | none => simp [buildPayload, hf, he]
        | some d0 => simp [buildPayload, hf, he, htl]

/-- C3 (amended): when `extract_data` of some subscribed channel fails, the
`Ready` handling panics at the `unwrap` (modelled as `none`): the failing
channel is not skipped, and no `Data` response is built from the remaining
channels. -/
theorem fetch_failure_propagates (compress_uri : String → String)
    (chan_map : List Channel) (client : Client) (frame : Frame)
    (h : ∃ name ∈ client.subscriptions, ∃ c,
      findChannel chan_map name = some c ∧ c.extract_data = none) :
    fetch_data_from_channels compress_uri chan_map client frame = none := by
  unfold fetch_data_from_channels
  rw [buildPayload_none_of_failure chan_map _ h]
  rfl

/-- Witness for `fetch_failure_propagates`: one failing channel among two. -/
theorem fetch_failure_propagates_witness :
    fetch_data_from_channels id [⟨"bad", none⟩, ⟨"good", some (Json.obj [])⟩]
      ⟨["bad", "good"], some (Json.obj [])⟩ ⟨2, .Ready⟩ = none :=
  fetch_failure_propagates id [⟨"bad", none⟩, ⟨"good", some (Json.obj [])⟩]
    ⟨["bad", "good"], some (Json.obj [])⟩ ⟨2, .Ready⟩
    ⟨"bad", by decide, ⟨"bad", none⟩, by rfl, rfl⟩

/-- C3 is false as stated: with channels `"bad"` (whose extraction fails)
and `"good"` (whose extraction succeeds) both subscribed, `Ready` handling
produces no response at all — it does not send a `Data` frame built from
`"good"` alone. -/
theorem fetch_failure_counterexample :
    fetch_data_from_channels id [⟨"bad", none⟩, ⟨"good", some (Json.obj [("x", Json.str "1")])⟩]
      ⟨["bad", "good"], some (Json.obj [])⟩ ⟨2, .Ready⟩ = none ∧
    fetch_data_from_channels id [⟨"bad", none⟩, ⟨"good", some (Json.obj [("x", Json.str "1")])⟩]
      ⟨["bad", "good"], some (Json.obj [])⟩ ⟨2, .Ready⟩ ≠
      some (⟨["bad", "good"], some (Json.obj [("good", Json.obj [("x", Json.str "1")])])⟩,
        Frame.create_data_frame id ⟨2, .Ready⟩
          (Json.obj [("good", Json.obj [("x", Json.str "1")])])) := by
  have h1 : fetch_data_from_channels id
      [⟨"bad", none⟩, ⟨"good", some (Json.obj [("x", Json.str "1")])⟩]
      ⟨["bad", "good"], some (Json.obj [])⟩ ⟨2, .Ready⟩ = none := rfl
  refine ⟨h1, ?_⟩
  rw [h1]
  simp

theorem findChannel_name {chan_map : List Channel} {name : String} {c : Channel}
    (h : findChannel chan_map name = some c) : c.name = name := by
  have := List.find?_some h
  simpa using this

theorem keysSorted_buildPayload {chan_map : List Channel} {subs : List String}
    {entries : List (String × Json)}
    (h : buildPayload chan_map subs = some entries) : keysSorted entries := by
  induction subs generalizing entries with
  | nil =>
    cases Option.some.inj h
    simp [keysSorted]
  | cons hd tl ih =>
    simp only [buildPayload, Option.bind_eq_some, Option.some.injEq] at h
    obtain ⟨c, hf, data, he, restE, hbp, hinsert⟩ := h
    cases hinsert
    exact keysSorted_insertKV _ _ (ih hbp)

theorem lookupKV_buildPayload {chan_map : List Channel} {subs : List String}
    {entries : List (String × Json)}
    (h : buildPayload chan_map subs = some entries) (k : String) :
    lookupKV k entries =
      if k ∈ subs then (findChannel chan_map k).bind Channel.extract_data else none := by
  induction subs generalizing entries with
  | nil =>
    cases Option.some.inj h
    simp [lookupKV]
  | cons hd tl ih =>
    simp only [buildPayload, Option.bind_eq_some, Option.some.injEq] at h
    obtain ⟨c, hf, data, he, restE, hbp, hinsert⟩ := h
    cases hinsert
    rw [lookupKV_insertKV, findChannel_name hf]
    by_cases hk : k = hd
    · subst hk
      simp [hf, he]
    · rw [if_neg hk, ih hbp]
      simp [List.mem_cons, hk]

/-- C4: after successful `Ready` handling the session's `last_message` is the
full newly computed payload — the key-sorted map from each subscribed
channel's name to its `extract_data` result — while the `Data` frame sent
carries the diff of the previous snapshot against that payload. -/
theorem ready_baseline_is_full_payload (compress_uri : String → String)
    (chan_map : List Channel) (client : Client) (frame : Frame)
    (payloadEntries : List (String × Json)) (snap d : Json)
    (hbp : buildPayload chan_map client.subscriptions = some payloadEntries)
    (hsnap : client.last_message = some snap)
    (hd : create_json_snapshot snap (Json.obj payloadEntries) = some d) :
    fetch_data_from_channels compress_uri chan_map client frame =
      some ({ client with last_message := some (Json.obj payloadEntries) },
        Frame.create_data_frame compress_uri frame d) ∧
    keysSorted payloadEntries ∧
    (∀ k, lookupKV k payloadEntries =
      if k ∈ client.subscriptions then (findChannel chan_map k).bind Channel.extract_data
      else none) := by
  refine ⟨?_, keysSorted_buildPayload hbp, fun k => lookupKV_buildPayload hbp k⟩
  simp [fetch_data_from_channels, hbp, hsnap, hd]

/-- Witness for `ready_baseline_is_full_payload`: the spec's S1 scenario —
one static `"reward"` channel, first `Ready` after subscribing. -/
theorem ready_baseline_is_full_payload_witness :
    fetch_data_from_channels id [⟨"reward", some (Json.obj [("version", Json.str "alpha")])⟩]
      ⟨["reward"], some (Json.obj [])⟩ ⟨2, .Ready⟩ =
      some (⟨["reward"], some (Json.obj [("reward", Json.obj [("version", Json.str "alpha")])])⟩,
        Frame.create_data_frame id ⟨2, .Ready⟩
          (Json.obj [("reward", Json.obj [("version", Json.str "alpha")])])) :=
  (ready_baseline_is_full_payload id
    [⟨"reward", some (Json.obj [("version", Json.str "alpha")])⟩]
    ⟨["reward"], some (Json.obj [])⟩ ⟨2, .Ready⟩
    [("reward", Json.obj [("version", Json.str "alpha")])]
    (Json.obj []) (Json.obj [("reward", Json.obj [("version", Json.str "alpha")])])
    rfl rfl rfl).1

/-- C6 (amended): an inbound frame of a server-originated variant (`Ok`,
`Err` or `Data`) sends the broker into the `unreachable!()` arm — the event
handling panics (modelled as `none`).  It is not dropped with a log entry,
and no state survives for the worker to continue with. -/
theorem server_variant_frame_panics (compress_uri : String → String) (b : Broker)
    (addr : Nat) (frame : Frame)
    (h : frame.data = .Ok ∨ (∃ code reason, frame.data = .Err code reason) ∨
      ∃ compressed payload, frame.data = .Data compressed payload) :
    Broker.handle_event compress_uri b ⟨addr, .ClientFrame frame⟩ = none := by
  obtain ⟨cseq, data⟩ := frame
  rcases h with h | ⟨code, reason, h⟩ | ⟨compressed, payload, h⟩ <;>
    (simp only at h; subst h; rfl)

/-- Witness for `server_variant_frame_panics`: an inbound `Err` frame. -/
theorem server_variant_frame_panics_witness :
    Broker.handle_event id ⟨[(0, Client.new)], []⟩
      ⟨0, .ClientFrame ⟨5, .Err 500 "oops"⟩⟩ = none :=
  server_variant_frame_panics id ⟨[(0, Client.new)], []⟩ 0 ⟨5, .Err 500 "oops"⟩
    (Or.inr (Or.inl ⟨500, "oops", rfl⟩))

/-- C6 is false as stated: an inbound `Ok` frame for a live session does not
leave the broker unchanged with no reply — `handle_event` hits
`unreachable!()` and panics (modelled as `none`). -/
theorem server_variant_frame_counterexample :
    Broker.handle_event id ⟨[(0, Client.new)], []⟩ ⟨0, .ClientFrame ⟨5, .Ok⟩⟩ = none ∧
    Broker.handle_event id ⟨[(0, Client.new)], []⟩ ⟨0, .ClientFrame ⟨5, .Ok⟩⟩ ≠
      some (⟨[(0, Client.new)], []⟩, []) := by
  have h1 : Broker.handle_event id ⟨[(0, Client.new)], []⟩
      ⟨0, .ClientFrame ⟨5, .Ok⟩⟩ = none := rfl
  refine ⟨h1, ?_⟩
  rw [h1]
  simp

/-- C7 (amended): a `ClientFrame` event whose address has no session is not
silently dropped — for the client-originated variants `get_client` unwraps a
missing map entry and panics, and for the server variants the
`unreachable!()` arm panics (both modelled as `none`); broker state does not
survive. -/
theorem unknown_addr_frame_panics (compress_uri : String → String) (b : Broker)
    (addr : Nat) (frame : Frame)
    (h : List.lookup addr b.client_map = none) :
    Broker.handle_event compress_uri b ⟨addr, .ClientFrame frame⟩ = none := by
  obtain ⟨cseq, data⟩ := frame
  cases data <;> simp [Broker.handle_event, h]

/-- Witness for `unknown_addr_frame_panics`: a `Ready` frame from an address
that never connected. -/
theorem unknown_addr_frame_panics_witness :
    Broker.handle_event id ⟨[(1, Client.new)], []⟩ ⟨2, .ClientFrame ⟨3, .Ready⟩⟩ = none :=
  unknown_addr_frame_panics id ⟨[(1, Client.new)], []⟩ 2 ⟨3, .Ready⟩ rfl

/-- C7 is false as stated: a late `Subscribe` frame for a disconnected
address is not silently dropped leaving the broker unchanged —
`handle_event` panics (modelled as `none`). -/
theorem unknown_addr_frame_counterexample :
    Broker.handle_event id ⟨[], []⟩ ⟨0, .ClientFrame ⟨1, .Subscribe ["news"]⟩⟩ = none ∧
    Broker.handle_event id ⟨[], []⟩ ⟨0, .ClientFrame ⟨1, .Subscribe ["news"]⟩⟩ ≠
      some (⟨[], []⟩, []) := by
  have h1 : Broker.handle_event id ⟨[], []⟩
      ⟨0, .ClientFrame ⟨1, .Subscribe ["news"]⟩⟩ = none := rfl
  refine ⟨h1, ?_⟩
  rw [h1]
  simp

end WsApp
